import Mathlib

/-!
Shallow embedding of the Redragon SS-550 stream-deck controller
(src/src-tauri/src/lib.rs) and verification of its specification claims.

Rust byte strings are modelled as `List Nat` (UTF-8 bytes, each < 256);
USB packets as `List Nat`; the in-memory `Config` as a structure whose
`HashMap<String, ButtonConfig>` is an association list.  Fallible Rust
code (functions that can panic or return `Result`) is modelled with
`Option` / `Except`.
-/

namespace StreamDeck

/-! ## Codec constants (lib.rs lines 148-162) -/

/-- Command framing header `43 52 54 00 00` ("CRT\0\0"), `CMD_PREFIX` in the source. -/
def CMD_CRT : List Nat := [0x43, 0x52, 0x54, 0x00, 0x00]

/-- Brightness command header "LIG\0\0". -/
def CMD_LIG : List Nat := [0x4c, 0x49, 0x47, 0x00, 0x00]

/-- Clear-screen command header "CLE\0\0\0". -/
def CMD_CLE : List Nat := [0x43, 0x4c, 0x45, 0x00, 0x00, 0x00]

/-- Wake/display command "DIS\0\0". -/
def CMD_DIS : List Nat := [0x44, 0x49, 0x53, 0x00, 0x00]

/-- Refresh/commit command "STP\0\0". -/
def CMD_STP : List Nat := [0x53, 0x54, 0x50, 0x00, 0x00]

/-- Image-upload announcement header "BAT". -/
def CMD_BAT : List Nat := [0x42, 0x41, 0x54]

/-- `PACKET_SIZE` in the source. -/
def PACKET_SIZE : Nat := 512

/-! ## Transport (lib.rs lines 245-328) -/

/-- Zero-pad a byte list to `n` bytes (the `while packet.len() < total_size
{ packet.push(0x00) }` loop); a list already at least `n` long is unchanged. -/
def padTo (n : Nat) (l : List Nat) : List Nat :=
  l ++ List.replicate (n - l.length) 0

/-- `send_to_device` (lines 245-275): builds the single interrupt packet that
is written to endpoint 0x01 — optional CRT header, payload, zero padding to
517 (prefixed) or 512 (raw) bytes.  We model the packet actually written. -/
def sendToDevice (data : List Nat) (use_crt : Bool) : List Nat :=
  let packet := (if use_crt then CMD_CRT else []) ++ data
  let total := if use_crt then CMD_CRT.length + PACKET_SIZE else PACKET_SIZE
  padTo total packet

/-- The chunk decomposition performed by the `while offset < data.len()` loop
of `send_bytes` (lines 309-318).  The fuel argument (instantiated with
`data.length`) makes the recursion structural; one chunk consumes at least
one byte, so `data.length` iterations always suffice. -/
def sendBytesChunks : Nat → List Nat → List (List Nat)
  | 0, _ => []
  | _ + 1, [] => []
  | fuel + 1, a :: rest =>
    (a :: rest).take PACKET_SIZE :: sendBytesChunks fuel ((a :: rest).drop PACKET_SIZE)

/-- `send_bytes` (lines 309-318): the sequence of raw (unprefixed) packets
written to endpoint 0x01 for a byte stream. -/
def sendBytes (data : List Nat) : List (List Nat) :=
  (sendBytesChunks data.length data).map (fun c => sendToDevice c false)

/-- Total number of raw bytes written by `send_bytes`. -/
def totalRawBytes (data : List Nat) : Nat :=
  ((sendBytes data).map List.length).sum

/-- `size_to_bytes` (lines 321-328): 4-byte big-endian encoding. -/
def size_to_bytes (size : Nat) : List Nat :=
  [size >>> 24 % 256, size >>> 16 % 256, size >>> 8 % 256, size % 256]

/-- `set_key_image` (lines 426-448): the ordered sequence of packets written
for one key image — framed BAT announcement, raw JPEG chunks, framed STP. -/
def setKeyImage (key_id : Nat) (jpeg : List Nat) : List (List Nat) :=
  sendToDevice (CMD_BAT ++ size_to_bytes jpeg.length ++ [key_id]) true ::
    (sendBytes jpeg ++ [sendToDevice CMD_STP true])

/-! ## Keypress decoding (lib.rs lines 166-185) -/

/-- `map_physical_to_logical`: physical key code to logical key id 1-15;
unknown codes pass through. -/
def map_physical_to_logical : Nat → Nat
  | 0x0b => 1
  | 0x0c => 2
  | 0x0d => 3
  | 0x0e => 4
  | 0x0f => 5
  | 0x06 => 6
  | 0x07 => 7
  | 0x08 => 8
  | 0x09 => 9
  | 0x0a => 10
  | 0x01 => 11
  | 0x02 => 12
  | 0x03 => 13
  | 0x04 => 14
  | 0x05 => 15
  | p => p

/-! ## IEEE-754 binary32 model for the brightness computation
(lib.rs line 279: `let level = (brightness as f32 * 0.64) as u8;`)

Nonnegative binary32 values arising here are dyadic rationals `num / 2 ^ den2`,
represented by `Dy`.  `rnF32Frac a b` rounds the rational `a / b` to the
nearest binary32 value (round half to even, the IEEE default), which models
both the decimal literal `0.64_f32` and the f32 multiplication (exact product
followed by one rounding).  All inputs here are far from overflow/subnormal
range, so exponent bounds need no clamping. -/

/-- Round the nonnegative rational `a / b` (with `b > 0`) to the nearest
integer, ties to even. -/
def rheFrac (a b : Nat) : Nat :=
  let q := a / b
  let r := a % b
  if 2 * r < b then q else if b < 2 * r then q + 1 else if q % 2 = 0 then q else q + 1

/-- Fuel-based helper: for `1 ≤ b ≤ a`, the largest `k` with `b * 2 ^ k ≤ a`
(so `⌊log₂ (a/b)⌋`); the fuel is instantiated with `a`, which always suffices. -/
def flog2F : Nat → Nat → Nat → Nat
  | 0, _, _ => 0
  | f + 1, a, b => if b * 2 ≤ a then flog2F f a (b * 2) + 1 else 0

/-- Fuel-based helper: for `1 ≤ a < b`, the smallest `m` with `b ≤ a * 2 ^ m`
(so `-⌊log₂ (a/b)⌋`); the fuel is instantiated with `b`, which always suffices. -/
def cmul2F : Nat → Nat → Nat → Nat
  | 0, _, _ => 0
  | f + 1, a, b => if b ≤ a then 0 else cmul2F f (a * 2) b + 1

/-- A nonnegative dyadic rational `num / 2 ^ den2`. -/
structure Dy where
  num : Nat
  den2 : Nat
deriving DecidableEq

/-- Round the nonnegative rational `a / b` (`b > 0`) to the nearest IEEE-754
binary32 value: with `e = ⌊log₂ (a/b)⌋`, round `(a/b) / 2^(e-23)` half to even
and scale back.  A mantissa overflow to `2^24` simply denotes `2^(e+1)`,
which is the correctly rounded result. -/
def rnF32Frac (a b : Nat) : Dy :=
  if a = 0 then ⟨0, 0⟩
  else if b ≤ a then
    let e := flog2F a a b
    let m := if e ≤ 23 then rheFrac (a * 2 ^ (23 - e)) b else rheFrac a (b * 2 ^ (e - 23))
    if 23 ≤ e then ⟨m * 2 ^ (e - 23), 0⟩ else ⟨m, 23 - e⟩
  else
    let mneg := cmul2F b a b
    ⟨rheFrac (a * 2 ^ (23 + mneg)) b, 23 + mneg⟩

/-- The binary32 value of the Rust literal `0.64_f32` (as a dyadic rational). -/
def f32_of_064 : Dy := rnF32Frac 64 100

/-- The brightness byte computed by `set_device_brightness` (line 279):
`(brightness as f32 * 0.64) as u8`.  `brightness as f32` is exact for
`brightness ≤ 100`; the f32 product is the exact product rounded once; the
`as u8` cast truncates toward zero and saturates at 255. -/
def brightness_level (p : Nat) : Nat :=
  let c := f32_of_064
  let prod := rnF32Frac (p * c.num) (2 ^ c.den2)
  min (prod.num / 2 ^ prod.den2) 255

/-- The payload handed to `send_to_device` by `set_device_brightness`
(lines 277-287): `LIG\0\0` followed by the level byte. -/
def set_device_brightness_payload (p : Nat) : List Nat :=
  CMD_LIG ++ [brightness_level p]

/-! ## Hex color parsing (lib.rs lines 331-341)

Rust strings are UTF-8 byte sequences; `&hex[0..2]` is a *byte* slice that
panics when an endpoint is not a character boundary.  `strSlice` returns
`none` exactly where the Rust slice would panic, so `parse_hex_color`
returning `none` models a panic. -/

/-- A UTF-8 continuation byte (`0x80..0xBF`); any such byte is never the
start of a character, so a byte index pointing at one is not a boundary. -/
def contByte (b : Nat) : Bool := decide (128 ≤ b) && decide (b < 192)

/-- Rust `str::is_char_boundary` on the byte list `s` at index `i`. -/
def charBoundary (s : List Nat) (i : Nat) : Bool :=
  (i == 0) || (i == s.length) ||
    (match s.get? i with
      | some b => !contByte b
      | none => false)

/-- Rust byte-range slicing `&s[a..b]`: `none` models the boundary panic. -/
def strSlice (s : List Nat) (a b : Nat) : Option (List Nat) :=
  if a ≤ b ∧ b ≤ s.length ∧ charBoundary s a ∧ charBoundary s b then
    some ((s.drop a).take (b - a))
  else none

/-- `char::to_digit(16)` for a byte: `0-9`, `a-f`, `A-F`. -/
def hexDigit (b : Nat) : Option Nat :=
  if 48 ≤ b ∧ b ≤ 57 then some (b - 48)
  else if 97 ≤ b ∧ b ≤ 102 then some (b - 87)
  else if 65 ≤ b ∧ b ≤ 70 then some (b - 55)
  else none

/-- The digit-accumulation loop of `from_str_radix`: fails on empty input, a
non-digit, or accumulated overflow past `u8::MAX`. -/
def fsrLoop (digits : List Nat) : Option Nat :=
  if digits.isEmpty then none
  else
    digits.foldl
      (fun acc b =>
        match acc, hexDigit b with
        | some a, some d => if a * 16 + d ≤ 255 then some (a * 16 + d) else none
        | _, _ => none)
      (some 0)

/-- `u8::from_str_radix(s, 16)`: optional leading `+` (byte 43), then one or
more hex digits. -/
def from_str_radix16_u8 (s : List Nat) : Option Nat :=
  fsrLoop (if s.head? = some 43 then s.tail else s)

/-- `parse_hex_color` (lines 331-341).  `trim_start_matches('#')` drops every
leading `#` (byte 35); if the rest has at least 6 bytes, the three 2-byte
slices are parsed with per-component fallbacks 26/26/46, otherwise the
default `(26, 26, 46)` is returned.  `none` models the byte-slice panic. -/
def parse_hex_color (color : List Nat) : Option (Nat × Nat × Nat) :=
  let hex := color.dropWhile (fun b => b == 35)
  if 6 ≤ hex.length then
    match strSlice hex 0 2, strSlice hex 2 4, strSlice hex 4 6 with
    | some s1, some s2, some s3 =>
      some ((from_str_radix16_u8 s1).getD 26,
        (from_str_radix16_u8 s2).getD 26,
        (from_str_radix16_u8 s3).getD 46)
    | _, _, _ => none
  else some (26, 26, 46)

/-! ## Timer widget (lib.rs lines 738-780 and 1576-1594) -/

/-- The two global atomics `TIMER_START` and `TIMER_DURATION`. -/
structure TimerState where
  start : Nat
  duration : Nat
deriving DecidableEq

/-- The `__TIMER_N__` branch of `handle_button_press` (lines 1576-1594):
toggle — stop if `TIMER_START > 0`, else start `minutes * 60` at `now`. -/
def press_timer (now minutes : Nat) (s : TimerState) : TimerState :=
  if 0 < s.start then ⟨0, 0⟩ else ⟨now, minutes * 60⟩

/-- Two-digit zero padding, Rust `{:02}`. -/
def fmt2 (n : Nat) : String :=
  if n < 10 then "0" ++ toString n else toString n

/-- `format!("{:02}:{:02}", mins, secs)` for a remaining-seconds count. -/
def fmtMMSS (r : Nat) : String :=
  fmt2 (r / 60) ++ ":" ++ fmt2 (r % 60)

/-- `get_widget_timer` (lines 738-764): returns the displayed text and the
timer state after the read (the DONE branch stores zeros).  Rust
`saturating_sub` is Nat subtraction. -/
def get_widget_timer (now : Nat) (s : TimerState) : String × TimerState :=
  if s.start = 0 ∨ s.duration = 0 then ("00:00", s)
  else if s.duration - (now - s.start) = 0 then ("DONE!", ⟨0, 0⟩)
  else (fmtMMSS (s.duration - (now - s.start)), s)

/-! ## Configuration store (lib.rs lines 38-142 and 1903-2085) -/

/-- `ButtonConfig` (lines 38-44). -/
structure ButtonConfig where
  label : String
  command : String
  color : String
  icon : String
deriving DecidableEq

/-- `Page` (lines 46-50); the `HashMap<String, ButtonConfig>` is modelled as
an association list (iteration order is irrelevant to every claim). -/
structure Page where
  name : String
  buttons : List (String × ButtonConfig)
deriving DecidableEq

/-- `Config` (lines 52-58). -/
structure Config where
  brightness : Nat
  current_page : Nat
  pages : List Page
deriving DecidableEq

/-- The documented Config invariant: `0 ≤ currentPage < pages.length` and
`pages.length ≥ 1` (the lower bound on `currentPage` is inherent in `Nat`). -/
def ConfigInv (c : Config) : Prop :=
  c.current_page < c.pages.length ∧ 1 ≤ c.pages.length

/-- `HashMap::insert`: replace the binding if the key exists, else append. -/
def insertButton (k : String) (v : ButtonConfig) (l : List (String × ButtonConfig)) :
    List (String × ButtonConfig) :=
  if l.any (fun p => p.1 == k) then l.map (fun p => if p.1 == k then (k, v) else p)
  else l ++ [(k, v)]

/-- The 15 blank default buttons inserted for keys "1".."15". -/
def defaultButtons : List (String × ButtonConfig) :=
  (List.range 15).map (fun i => (toString (i + 1), ⟨"", "", "#1a1a2e", ""⟩))

/-- `AppState::default_config` (lines 102-133): one page, key 5 is ">>". -/
def default_config : Config :=
  ⟨50, 0,
    [⟨"Principal", insertButton "5" ⟨">>", "__NEXT_PAGE__", "#e94560", ""⟩ defaultButtons⟩]⟩

/-- `set_page` (lines 1960-1968): set `current_page` only if in range. -/
def set_page (c : Config) (index : Nat) : Config :=
  if index < c.pages.length then { c with current_page := index } else c

/-- `add_page` (lines 1971-1993): push a fresh page of default buttons. -/
def add_page (c : Config) (name : String) : Config :=
  { c with pages := c.pages ++ [⟨name, defaultButtons⟩] }

/-- `delete_page` (lines 1996-2013): refuse to delete the last page; on a
valid index remove the page and clamp `current_page` back into range. -/
def delete_page (c : Config) (index : Nat) : Except String Config :=
  if c.pages.length ≤ 1 then Except.error "Cannot delete the last page"
  else if index < c.pages.length then
    Except.ok
      { brightness := c.brightness,
        current_page :=
          if (c.pages.eraseIdx index).length ≤ c.current_page then
            (c.pages.eraseIdx index).length - 1
          else c.current_page,
        pages := c.pages.eraseIdx index }
  else Except.ok c

/-- The config left in the store after a `delete_page` call: the mutex-guarded
`Config` is only mutated on the success path, so an error leaves it as it was. -/
def delete_page_stored (c : Config) (index : Nat) : Config :=
  match delete_page c index with
  | Except.ok c' => c'
  | Except.error _ => c

/-- `update_page_name` (lines 2016-2026). -/
def update_page_name (c : Config) (index : Nat) (name : String) : Config :=
  match c.pages.get? index with
  | some p => { c with pages := c.pages.set index { p with name := name } }
  | none => c

/-- `update_button` (lines 2029-2044). -/
def update_button (c : Config) (page_index : Nat) (button_id : String)
    (bc : ButtonConfig) : Config :=
  match c.pages.get? page_index with
  | some p =>
    { c with pages := c.pages.set page_index { p with buttons := insertButton button_id bc p.buttons } }
  | none => c

/-- `set_brightness_level` (lines 2047-2058). -/
def set_brightness_level (c : Config) (b : Nat) : Config :=
  { c with brightness := b }

/-- The `for i in 1..=15 { ... insert default ... }` loop body of
`clear_page_buttons`, applied to one page. -/
def clearButtons (p : Page) : Page :=
  { p with buttons := defaultButtons.foldl (fun m kv => insertButton kv.1 kv.2 m) p.buttons }

/-- `clear_page_buttons` (lines 2061-2085): error on an invalid index, else
re-insert the 15 defaults into the page's map. -/
def clear_page_buttons (c : Config) (page_index : Nat) : Except String Config :=
  if c.pages.length ≤ page_index then Except.error "Invalid page index"
  else
    match c.pages.get? page_index with
    | some p => Except.ok { c with pages := c.pages.set page_index (clearButtons p) }
    | none => Except.error "Invalid page index"

/-- `reset_config` (lines 2259-2276): replace by the default config. -/
def reset_config (_c : Config) : Config := default_config

/-- `save_full_config` (lines 1910-1916): `*current = config` — the GUI's
config replaces the stored one verbatim, with no validation. -/
def save_full_config (_c new : Config) : Config := new

/-! ## Page navigation (lib.rs lines 1548-1573 and 1748-1776) -/

/-- `change_page` (lines 1748-1776): the rewritten config, or `none` when the
index is out of range (in which case nothing is written to disk). -/
def change_page (c : Config) (page_index : Nat) : Option Config :=
  if c.pages.length ≤ page_index then none
  else some { c with current_page := page_index }

/-- Target page of `__NEXT_PAGE__` (line 1549). -/
def next_page_index (c : Config) : Nat :=
  (c.current_page + 1) % c.pages.length

/-- Target page of `__PREV_PAGE__` (lines 1555-1559). -/
def prev_page_index (c : Config) : Nat :=
  if c.current_page = 0 then c.pages.length - 1 else c.current_page - 1

instance decConfigInv (c : Config) : Decidable (ConfigInv c) :=
  inferInstanceAs (Decidable (c.current_page < c.pages.length ∧ 1 ≤ c.pages.length))

/-- A concrete three-page configuration used as a test vector. -/
def cfg3 : Config :=
  ⟨50, 2, [⟨"A", []⟩, ⟨"B", []⟩, ⟨"C", []⟩]⟩

/-! ## Transport lemmas -/

theorem padTo_length (n : Nat) (l : List Nat) : (padTo n l).length = max l.length n := by
  simp [padTo]
  omega

theorem sendToDevice_raw (c : List Nat) :
    sendToDevice c false = c ++ List.replicate (512 - c.length) 0 := by
  simp [sendToDevice, padTo, PACKET_SIZE]

theorem sendToDevice_raw_length (c : List Nat) (h : c.length ≤ 512) :
    (sendToDevice c false).length = 512 := by
  rw [sendToDevice_raw]
  simp
  omega

theorem sendToDevice_crt (d : List Nat) :
    sendToDevice d true = CMD_CRT ++ d ++ List.replicate (512 - d.length) 0 := by
  have h5 : CMD_CRT.length = 5 := by decide
  simp only [sendToDevice, padTo, if_pos, PACKET_SIZE, List.append_assoc, List.length_append, h5]
  have : 5 + 512 - (5 + d.length) = 512 - d.length := by omega
  rw [this]

theorem sendToDevice_crt_length (d : List Nat) (h : d.length ≤ 512) :
    (sendToDevice d true).length = 517 := by
  rw [sendToDevice_crt]
  simp [CMD_CRT]
  omega

theorem sendBytesChunks_nil_eq (fuel : Nat) : sendBytesChunks fuel [] = [] := by
  cases fuel <;> rfl

theorem sendBytesChunks_cons_eq (fuel : Nat) (l : List Nat) (h : l ≠ []) :
    sendBytesChunks (fuel + 1) l =
      l.take PACKET_SIZE :: sendBytesChunks fuel (l.drop PACKET_SIZE) := by
  cases l with
  | nil => exact absurd rfl h
  | cons a rest => rfl

theorem sendBytesChunks_mem_len (fuel : Nat) (l : List Nat) (h : l.length ≤ fuel) :
    ∀ c ∈ sendBytesChunks fuel l, 0 < c.length ∧ c.length ≤ 512 := by
  induction fuel generalizing l with
  | zero =>
    have hl : l = [] := List.length_eq_zero.mp (Nat.le_zero.mp h)
    subst hl
    simp [sendBytesChunks_nil_eq]
  | succ f ih =>
    cases l with
    | nil => simp [sendBytesChunks_nil_eq]
    | cons a rest =>
      intro c hc
      rw [sendBytesChunks_cons_eq f (a :: rest) (by simp)] at hc
      rcases List.mem_cons.mp hc with h1 | h2
      · subst h1
        simp only [List.length_take, List.length_cons, PACKET_SIZE]
        omega
      · refine ih (List.drop PACKET_SIZE (a :: rest)) ?_ c h2
        simp only [List.length_drop, List.length_cons, PACKET_SIZE] at *
        omega

theorem sendBytesChunks_count (fuel : Nat) (l : List Nat) (h : l.length ≤ fuel) :
    (sendBytesChunks fuel l).length = (l.length + 511) / 512 := by
  induction fuel generalizing l with
  | zero =>
    have hl : l = [] := List.length_eq_zero.mp (Nat.le_zero.mp h)
    subst hl
    simp [sendBytesChunks_nil_eq]
  | succ f ih =>
    cases l with
    | nil => simp [sendBytesChunks_nil_eq]
    | cons a rest =>
      rw [sendBytesChunks_cons_eq f (a :: rest) (by simp)]
      have hrec := ih (List.drop PACKET_SIZE (a :: rest))
        (by simp only [List.length_drop, List.length_cons, PACKET_SIZE] at *; omega)
      simp only [List.length_cons, List.length_drop, PACKET_SIZE] at *
      rw [hrec]
      omega

theorem sendBytes_mem_512 (data : List Nat) : ∀ p ∈ sendBytes data, p.length = 512 := by
  intro p hp
  rcases List.mem_map.mp hp with ⟨c, hc, rfl⟩
  exact sendToDevice_raw_length c (sendBytesChunks_mem_len data.length data le_rfl c hc).2

theorem totalRawBytes_eq (data : List Nat) :
    totalRawBytes data = ((data.length + 511) / 512) * 512 := by
  unfold totalRawBytes
  have h1 : (sendBytes data).map List.length = (sendBytes data).map (fun _ => 512) :=
    List.map_congr_left (sendBytes_mem_512 data)
  rw [h1]
  have h2 : ((sendBytes data).map (fun _ => 512)).sum = (sendBytes data).length * 512 := by
    induction sendBytes data with
    | nil => simp
    | cons x xs ihx => simp [ihx]; ring
  rw [h2, sendBytes, List.length_map, sendBytesChunks_count data.length data le_rfl]

/-- Claim C1: every framed command written to endpoint 0x01 (send_to_device
with the CRT header) is exactly 517 bytes; every raw continuation chunk
(send_to_device without the header, as produced by send_bytes) is exactly
512 bytes, zero-padded; and the total number of raw bytes written by
send_bytes for an image of jpeg_len bytes is ceil(jpeg_len / 512) * 512. -/
theorem C1_packet_sizes (data img : List Nat) (h : data.length ≤ 512) :
    sendToDevice data true = CMD_CRT ++ data ++ List.replicate (512 - data.length) 0 ∧
    (sendToDevice data true).length = 517 ∧
    (sendToDevice data false).length = 512 ∧
    (∀ p ∈ sendBytes img, p.length = 512) ∧
    totalRawBytes img = ((img.length + 511) / 512) * 512 :=
  ⟨sendToDevice_crt data, sendToDevice_crt_length data h, sendToDevice_raw_length data h,
    sendBytes_mem_512 img, totalRawBytes_eq img⟩

/-- Witness for C1 at the LIG payload and a 700-byte image. -/
theorem C1_packet_sizes_witness :
    (sendToDevice (CMD_LIG ++ [32]) true).length = 517 ∧
    totalRawBytes (List.replicate 700 1) = 1024 := by
  have h := C1_packet_sizes (CMD_LIG ++ [32]) (List.replicate 700 1) (by decide)
  refine ⟨h.2.1, ?_⟩
  rw [h.2.2.2.2, List.length_replicate]

/-- Claim C2 as stated is false: a 1,200-byte JPEG needs three raw chunks
(512 + 512 + 176 bytes), so send_bytes performs three 512-byte raw writes,
not two. -/
theorem C2_counterexample :
    (sendBytes (List.replicate 1200 171)).length = 3 ∧
    ¬ (sendBytes (List.replicate 1200 171)).length = 2 := by
  have h3 : (sendBytes (List.replicate 1200 171)).length = 3 := by
    rw [sendBytes, List.length_map, sendBytesChunks_count _ _ le_rfl, List.length_replicate]
  exact ⟨h3, by rw [h3]; decide⟩

theorem sendBytesChunks_1200 (jpeg : List Nat) (h : jpeg.length = 1200) :
    sendBytesChunks jpeg.length jpeg =
      [jpeg.take 512, (jpeg.drop 512).take 512, jpeg.drop 1024] := by
  have hd1024 : (jpeg.drop 1024).length = 176 := by
    rw [List.length_drop, h]
  have hne : jpeg ≠ [] := by
    intro he
    rw [he] at h
    simp at h
  have hdd : (jpeg.drop PACKET_SIZE).drop PACKET_SIZE = jpeg.drop 1024 := by
    rw [List.drop_drop]
    norm_num [PACKET_SIZE]
  have hne2 : jpeg.drop PACKET_SIZE ≠ [] := by
    have hl : (jpeg.drop PACKET_SIZE).length = 688 := by
      simp only [List.length_drop, PACKET_SIZE, h]
    intro he
    rw [he] at hl
    simp at hl
  have hne3 : (jpeg.drop PACKET_SIZE).drop PACKET_SIZE ≠ [] := by
    rw [hdd]
    intro he
    rw [he] at hd1024
    simp at hd1024
  have hnil : ((jpeg.drop PACKET_SIZE).drop PACKET_SIZE).drop PACKET_SIZE = [] := by
    apply List.length_eq_zero.mp
    rw [hdd, List.length_drop, hd1024]
    decide
  rw [h, show (1200 : Nat) = 1199 + 1 from rfl, sendBytesChunks_cons_eq 1199 jpeg hne,
    show (1199 : Nat) = 1198 + 1 from rfl, sendBytesChunks_cons_eq 1198 _ hne2,
    show (1198 : Nat) = 1197 + 1 from rfl, sendBytesChunks_cons_eq 1197 _ hne3,
    hnil, sendBytesChunks_nil_eq, hdd,
    List.take_of_length_le (by rw [hd1024]; decide : (jpeg.drop 1024).length ≤ PACKET_SIZE)]
  rfl

/-- Claim C2 amended: uploading a 1,200-byte JPEG to key 7 produces, in order,
one framed BAT command with payload bytes 42 41 54 00 00 04 B0 07 (padded to
the 517-byte frame), then exactly THREE 512-byte raw writes, the third
zero-padded after offset 176, then one framed STP command. -/
theorem C2_amended (jpeg : List Nat) (h : jpeg.length = 1200) :
    setKeyImage 7 jpeg =
      sendToDevice (CMD_BAT ++ [0x00, 0x00, 0x04, 0xB0] ++ [7]) true ::
        sendToDevice (jpeg.take 512) false ::
        sendToDevice ((jpeg.drop 512).take 512) false ::
        sendToDevice (jpeg.drop 1024) false ::
        [sendToDevice CMD_STP true] ∧
    sendToDevice (jpeg.drop 1024) false = jpeg.drop 1024 ++ List.replicate 336 0 ∧
    (jpeg.drop 1024).length = 176 ∧
    (∀ p ∈ sendBytes jpeg, p.length = 512) := by
  have hd1024 : (jpeg.drop 1024).length = 176 := by
    rw [List.length_drop, h]
  have hsb : sendBytes jpeg =
      [sendToDevice (jpeg.take 512) false, sendToDevice ((jpeg.drop 512).take 512) false,
        sendToDevice (jpeg.drop 1024) false] := by
    rw [sendBytes, sendBytesChunks_1200 jpeg h]
    rfl
  refine ⟨?_, ?_, hd1024, sendBytes_mem_512 jpeg⟩
  · rw [setKeyImage, h, hsb]
    rfl
  · rw [sendToDevice_raw, hd1024]

/-- Witness for C2 (amended) at a concrete 1,200-byte JPEG. -/
theorem C2_amended_witness :
    setKeyImage 7 (List.replicate 1200 5) =
      sendToDevice (CMD_BAT ++ [0x00, 0x00, 0x04, 0xB0] ++ [7]) true ::
        sendToDevice ((List.replicate 1200 5).take 512) false ::
        sendToDevice (((List.replicate 1200 5).drop 512).take 512) false ::
        sendToDevice ((List.replicate 1200 5).drop 1024) false ::
        [sendToDevice CMD_STP true] ∧
    ((List.replicate 1200 5).drop 1024).length = 176 :=
  ⟨(C2_amended (List.replicate 1200 (5 : Nat)) (List.length_replicate 1200 5)).1,
    (C2_amended (List.replicate 1200 (5 : Nat)) (List.length_replicate 1200 5)).2.2.1⟩

/-! ## ConfigStore claims -/

/-- Claim C3 as stated is false: `save_full_config` stores the GUI-supplied
config verbatim with no validation, so a supplied config with
`currentPage = 5` over a single page breaks the invariant. -/
theorem C3_counterexample :
    ConfigInv default_config ∧
    ¬ ConfigInv (save_full_config default_config ⟨0, 5, [⟨"P", []⟩]⟩) := by
  decide

/-- Claim C3 amended: every CommandSurface mutator except `save_full_config`
preserves the Config invariant for every argument value; `save_full_config`
stores the supplied config verbatim, so it preserves the invariant exactly
when the supplied config itself satisfies it. -/
theorem C3_amended :
    (∀ c i, ConfigInv c → ConfigInv (set_page c i)) ∧
    (∀ c name, ConfigInv c → ConfigInv (add_page c name)) ∧
    (∀ c i c', ConfigInv c → delete_page c i = Except.ok c' → ConfigInv c') ∧
    (∀ c i name, ConfigInv c → ConfigInv (update_page_name c i name)) ∧
    (∀ c i bid b, ConfigInv c → ConfigInv (update_button c i bid b)) ∧
    (∀ c b, ConfigInv c → ConfigInv (set_brightness_level c b)) ∧
    (∀ c i c', ConfigInv c → clear_page_buttons c i = Except.ok c' → ConfigInv c') ∧
    (∀ c, ConfigInv (reset_config c)) ∧
    (∀ c new, ConfigInv new → ConfigInv (save_full_config c new)) := by
  refine ⟨?_, ?_, ?_, ?_, ?_, ?_, ?_, ?_, ?_⟩
  · intro c i h
    unfold set_page
    split
    · exact ⟨by assumption, h.2⟩
    · exact h
  · intro c name h
    rcases h with ⟨h1, h2⟩
    constructor
    · simp only [add_page, List.length_append, List.length_cons, List.length_nil]
      omega
    · simp only [add_page, List.length_append, List.length_cons, List.length_nil]
      omega
  · intro c i c' h heq
    rcases h with ⟨h1, h2⟩
    unfold delete_page at heq
    by_cases hle : c.pages.length ≤ 1
    · rw [if_pos hle] at heq
      exact absurd heq (by simp)
    · rw [if_neg hle] at heq
      by_cases hlt : i < c.pages.length
      · rw [if_pos hlt] at heq
        injection heq with h3
        subst h3
        have hlen : (c.pages.eraseIdx i).length = c.pages.length - 1 :=
          List.length_eraseIdx_of_lt hlt
        constructor
        · change (if (c.pages.eraseIdx i).length ≤ c.current_page then
              (c.pages.eraseIdx i).length - 1
            else c.current_page) < (c.pages.eraseIdx i).length
          by_cases hc : (c.pages.eraseIdx i).length ≤ c.current_page
          · rw [if_pos hc]
            omega
          · rw [if_neg hc]
            omega
        · change 1 ≤ (c.pages.eraseIdx i).length
          omega
      · rw [if_neg hlt] at heq
        injection heq with h3
        subst h3
        exact ⟨h1, h2⟩
  · intro c i name h
    rcases h with ⟨h1, h2⟩
    unfold update_page_name
    cases c.pages.get? i with
    | none => exact ⟨h1, h2⟩
    | some p =>
      refine ⟨?_, ?_⟩ <;> simp [List.length_set] <;> omega
  · intro c i bid b h
    rcases h with ⟨h1, h2⟩
    unfold update_button
    cases c.pages.get? i with
    | none => exact ⟨h1, h2⟩
    | some p =>
      refine ⟨?_, ?_⟩ <;> simp [List.length_set] <;> omega
  · intro c b h
    exact ⟨h.1, h.2⟩
  · intro c i c' h heq
    rcases h with ⟨h1, h2⟩
    unfold clear_page_buttons at heq
    by_cases hle : c.pages.length ≤ i
    · rw [if_pos hle] at heq
      exact absurd heq (by simp)
    · rw [if_neg hle] at heq
      cases hg : c.pages.get? i with
      | none =>
        rw [hg] at heq
        exact absurd heq (by simp)
      | some p =>
        rw [hg] at heq
        injection heq with h3
        subst h3
        exact ⟨by simpa [List.length_set] using h1, by simpa [List.length_set] using h2⟩
  · intro c
    exact (show ConfigInv default_config by decide)
  · intro c new h
    exact h

/-- Witness for C3 (amended) at the default config. -/
theorem C3_amended_witness :
    ConfigInv (set_page default_config 0) ∧
    ConfigInv (save_full_config default_config default_config) :=
  ⟨C3_amended.1 default_config 0 (by decide),
    C3_amended.2.2.2.2.2.2.2.2 default_config default_config (by decide)⟩

/-- Claim C8: `delete_page` returns an error when there is exactly one page,
leaving the stored config untouched; on a valid index with more than one page
it erases that page, keeps the brightness, and clamps `current_page` to
`pages.length - 1` when it would fall out of range (i.e. the new index is
`min currentPage (newLength - 1)`). -/
theorem C8_delete_last_page (c : Config) (i : Nat) :
    (c.pages.length = 1 →
      delete_page c i = Except.error "Cannot delete the last page" ∧
      delete_page_stored c i = c) ∧
    (∀ c', 1 < c.pages.length → i < c.pages.length → delete_page c i = Except.ok c' →
      c'.brightness = c.brightness ∧
      c'.pages = c.pages.eraseIdx i ∧
      c'.current_page = min c.current_page ((c.pages.eraseIdx i).length - 1)) := by
  constructor
  · intro h1
    have herr : delete_page c i = Except.error "Cannot delete the last page" := by
      unfold delete_page
      rw [if_pos (by omega)]
    refine ⟨herr, ?_⟩
    unfold delete_page_stored
    rw [herr]
  · intro c' hgt hi heq
    unfold delete_page at heq
    rw [if_neg (by omega), if_pos hi] at heq
    injection heq with h3
    subst h3
    refine ⟨rfl, rfl, ?_⟩
    have hlen : (c.pages.eraseIdx i).length = c.pages.length - 1 :=
      List.length_eraseIdx_of_lt hi
    change (if (c.pages.eraseIdx i).length ≤ c.current_page then
        (c.pages.eraseIdx i).length - 1
      else c.current_page) = min c.current_page ((c.pages.eraseIdx i).length - 1)
    by_cases hc : (c.pages.eraseIdx i).length ≤ c.current_page
    · rw [if_pos hc]
      omega
    · rw [if_neg hc]
      omega

/-- Witness for C8: deleting the only page of the default config fails and
mutates nothing; deleting page 0 of a three-page config clamps the index. -/
theorem C8_delete_last_page_witness :
    (delete_page default_config 0 = Except.error "Cannot delete the last page" ∧
      delete_page_stored default_config 0 = default_config) ∧
    ((delete_page_stored cfg3 0).brightness = cfg3.brightness ∧
      (delete_page_stored cfg3 0).pages = cfg3.pages.eraseIdx 0 ∧
      (delete_page_stored cfg3 0).current_page =
        min cfg3.current_page ((cfg3.pages.eraseIdx 0).length - 1)) :=
  ⟨(C8_delete_last_page default_config 0).1 (by decide),
    (C8_delete_last_page cfg3 0).2 (delete_page_stored cfg3 0) (by decide) (by decide) rfl⟩

/-- Claim C10: for a config whose current page index is valid, every
page-navigation press target (`__NEXT_PAGE__`, `__PREV_PAGE__`, an in-range
`__PAGE_N__`) makes `change_page` rewrite the config with only the
`currentPage` field changed: brightness and the entire pages sequence are
preserved. -/
theorem C10_navigation (c : Config) (h : c.current_page < c.pages.length) :
    change_page c (next_page_index c) = some { c with current_page := next_page_index c } ∧
    change_page c (prev_page_index c) = some { c with current_page := prev_page_index c } ∧
    (∀ n, n < c.pages.length → change_page c n = some { c with current_page := n }) ∧
    (∀ n c', change_page c n = some c' →
      c'.brightness = c.brightness ∧ c'.pages = c.pages ∧ c'.current_page = n) := by
  have hpos : 0 < c.pages.length := lt_of_le_of_lt (Nat.zero_le _) h
  have hnext : next_page_index c < c.pages.length := Nat.mod_lt _ hpos
  have hprev : prev_page_index c < c.pages.length := by
    unfold prev_page_index
    split <;> omega
  refine ⟨?_, ?_, ?_, ?_⟩
  · unfold change_page
    rw [if_neg (by omega)]
  · unfold change_page
    rw [if_neg (by omega)]
  · intro n hn
    unfold change_page
    rw [if_neg (by omega)]
  · intro n c' heq
    unfold change_page at heq
    by_cases hle : c.pages.length ≤ n
    · rw [if_pos hle] at heq
      exact absurd heq (by simp)
    · rw [if_neg hle] at heq
      injection heq with h3
      subst h3
      exact ⟨rfl, rfl, rfl⟩

/-- Witness for C10 on the three-page config (current page 2: next wraps to
0, prev goes to 1, and page 1 is directly reachable). -/
theorem C10_navigation_witness :
    change_page cfg3 (next_page_index cfg3) =
      some { cfg3 with current_page := next_page_index cfg3 } ∧
    change_page cfg3 (prev_page_index cfg3) =
      some { cfg3 with current_page := prev_page_index cfg3 } ∧
    change_page cfg3 1 = some { cfg3 with current_page := 1 } :=
  ⟨(C10_navigation cfg3 (by decide)).1, (C10_navigation cfg3 (by decide)).2.1,
    (C10_navigation cfg3 (by decide)).2.2.1 1 (by decide)⟩

/-! ## Brightness (C4) and keypress mapping (C7) -/

set_option maxRecDepth 16000 in
/-- Claim C4: for every brightness percent in 0..=100 the level byte computed
by `(brightness as f32 * 0.64) as u8` equals floor(percent * 0.64) exactly
(in Nat arithmetic, `64 * p / 100`), so it lies in 0..=64; percent 75 yields
byte 48, i.e. LIG payload 4C 49 47 00 00 30. -/
theorem C4_brightness_floor (p : Nat) (hp : p ≤ 100) :
    brightness_level p = 64 * p / 100 ∧
    brightness_level p ≤ 64 ∧
    set_device_brightness_payload 75 = [0x4c, 0x49, 0x47, 0x00, 0x00, 0x30] := by
  have hall : ∀ q : Nat, q ≤ 100 → brightness_level q = 64 * q / 100 := by decide
  refine ⟨hall p hp, ?_, by decide⟩
  rw [hall p hp]
  omega

/-- Witness for C4 at percent 75. -/
theorem C4_brightness_floor_witness :
    brightness_level 75 = 48 ∧ brightness_level 75 ≤ 64 := by
  have h := C4_brightness_floor 75 (by decide)
  exact ⟨by rw [h.1], h.2.1⟩

set_option maxRecDepth 16000 in
/-- Claim C7: restricted to the physical codes 1..15,
`map_physical_to_logical` is a bijection onto logical keys 1..15 realising
the specified row layout; for every byte, the image lies in 1..15 iff the
input does, and unknown codes pass through unchanged. -/
theorem C7_physical_logical :
    ((List.range' 1 15).map map_physical_to_logical).Perm (List.range' 1 15) ∧
    (∀ a, a ≤ 15 → 1 ≤ a → ∀ b, b ≤ 15 → 1 ≤ b →
      map_physical_to_logical a = map_physical_to_logical b → a = b) ∧
    (∀ b, b ≤ 255 →
      ((1 ≤ map_physical_to_logical b ∧ map_physical_to_logical b ≤ 15) ↔
        (1 ≤ b ∧ b ≤ 15))) ∧
    (∀ b, b ≤ 255 → (b = 0 ∨ 15 < b) → map_physical_to_logical b = b) ∧
    (map_physical_to_logical 0x0b = 1 ∧ map_physical_to_logical 0x0c = 2 ∧
      map_physical_to_logical 0x0d = 3 ∧ map_physical_to_logical 0x0e = 4 ∧
      map_physical_to_logical 0x0f = 5 ∧ map_physical_to_logical 0x06 = 6 ∧
      map_physical_to_logical 0x07 = 7 ∧ map_physical_to_logical 0x08 = 8 ∧
      map_physical_to_logical 0x09 = 9 ∧ map_physical_to_logical 0x0a = 10 ∧
      map_physical_to_logical 0x01 = 11 ∧ map_physical_to_logical 0x02 = 12 ∧
      map_physical_to_logical 0x03 = 13 ∧ map_physical_to_logical 0x04 = 14 ∧
      map_physical_to_logical 0x05 = 15) := by
  refine ⟨by decide, by decide, by decide, by decide, by decide⟩

/-- Witness for C7: physical code 0x0A maps into the logical range. -/
theorem C7_physical_logical_witness :
    1 ≤ map_physical_to_logical 10 ∧ map_physical_to_logical 10 ≤ 15 :=
  (C7_physical_logical.2.2.1 10 (by decide)).mpr (by decide)

/-! ## Hex color parsing claims -/

theorem hexDigit_bounds (b v : Nat) (h : hexDigit b = some v) :
    48 ≤ b ∧ b ≤ 102 ∧ v ≤ 15 := by
  unfold hexDigit at h
  split_ifs at h with h1 h2 h3 <;> (injection h with hv; omega)

theorem fsr_two_digits (a b va vb : Nat)
    (ha : hexDigit a = some va) (hb : hexDigit b = some vb) :
    from_str_radix16_u8 [a, b] = some (va * 16 + vb) := by
  obtain ⟨ha1, ha2, ha3⟩ := hexDigit_bounds a va ha
  obtain ⟨hb1, hb2, hb3⟩ := hexDigit_bounds b vb hb
  have hne : ¬ (([a, b] : List Nat).head? = some 43) := by
    simp only [List.head?, Option.some.injEq]
    omega
  unfold from_str_radix16_u8
  rw [if_neg hne]
  unfold fsrLoop
  rw [if_neg (by simp)]
  simp only [List.foldl, ha, hb]
  rw [if_pos (by omega)]
  show (if (0 * 16 + va) * 16 + vb ≤ 255 then some ((0 * 16 + va) * 16 + vb) else none) =
    some (va * 16 + vb)
  rw [if_pos (by omega)]
  simp only [Option.some.injEq]
  omega

theorem parse_hex_color_hash (color : List Nat) :
    parse_hex_color (35 :: color) = parse_hex_color color := by
  unfold parse_hex_color
  simp [List.dropWhile_cons]

theorem parse_hex_color_six (d1 d2 d3 d4 d5 d6 v1 v2 v3 v4 v5 v6 : Nat)
    (h1 : hexDigit d1 = some v1) (h2 : hexDigit d2 = some v2)
    (h3 : hexDigit d3 = some v3) (h4 : hexDigit d4 = some v4)
    (h5 : hexDigit d5 = some v5) (h6 : hexDigit d6 = some v6) :
    parse_hex_color [d1, d2, d3, d4, d5, d6] =
      some (v1 * 16 + v2, v3 * 16 + v4, v5 * 16 + v6) := by
  obtain ⟨b11, b12, _⟩ := hexDigit_bounds d1 v1 h1
  obtain ⟨b31, b32, _⟩ := hexDigit_bounds d3 v3 h3
  obtain ⟨b51, b52, _⟩ := hexDigit_bounds d5 v5 h5
  have hdw : ([d1, d2, d3, d4, d5, d6] : List Nat).dropWhile (fun b => b == 35) =
      [d1, d2, d3, d4, d5, d6] := by
    rw [List.dropWhile_cons]
    rw [if_neg (by simp only [beq_iff_eq]; omega)]
  have hb0 : ∀ l : List Nat, charBoundary l 0 = true := by
    intro l
    simp [charBoundary]
  have hbmid : ∀ x : Nat, 48 ≤ x → x ≤ 102 → contByte x = false := by
    intro x hx1 hx2
    simp only [contByte]
    rw [decide_eq_false (by omega : ¬ (128 ≤ x))]
    simp
  have hs1 : strSlice [d1, d2, d3, d4, d5, d6] 0 2 = some [d1, d2] := by
    unfold strSlice
    rw [if_pos ⟨by omega, by simp, by rw [hb0], by simp [charBoundary]; exact hbmid d3 b31 b32⟩]
    rfl
  have hs2 : strSlice [d1, d2, d3, d4, d5, d6] 2 4 = some [d3, d4] := by
    unfold strSlice
    rw [if_pos ⟨by omega, by simp,
      by simp [charBoundary]; exact hbmid d3 b31 b32,
      by simp [charBoundary]; exact hbmid d5 b51 b52⟩]
    rfl
  have hs3 : strSlice [d1, d2, d3, d4, d5, d6] 4 6 = some [d5, d6] := by
    unfold strSlice
    rw [if_pos ⟨by omega, by simp,
      by simp [charBoundary]; exact hbmid d5 b51 b52, by simp [charBoundary]⟩]
    rfl
  unfold parse_hex_color
  rw [hdw, if_pos (by simp), hs1, hs2, hs3]
  simp only [fsr_two_digits d1 d2 v1 v2 h1 h2, fsr_two_digits d3 d4 v3 v4 h3 h4,
    fsr_two_digits d5 d6 v5 v6 h5 h6, Option.getD_some]

/-- Claim C5 as stated is false: the input "00XXXX" (bytes 48 48 88 88 88 88)
is not a valid color of the form #RRGGBB, yet parse_hex_color returns
(0, 26, 46), not the default (26, 26, 46) — the red component parses and only
the failing components fall back. -/
theorem C5_counterexample :
    parse_hex_color [48, 48, 88, 88, 88, 88] = some (0, 26, 46) ∧
    ((0, 26, 46) : Nat × Nat × Nat) ≠ (26, 26, 46) := by
  exact ⟨by decide, by decide⟩

/-- Claim C5 amended: parse_hex_color maps every valid color string of the
form #RRGGBB (hex digits, upper- or lowercase, one leading # optional) to
((RR)16, (GG)16, (BB)16), and maps every input whose stripped form is shorter
than 6 bytes to (26, 26, 46); for other invalid inputs of at least 6 bytes
each 2-byte component falls back to its own default (26, 26, 46 resp.)
independently, so the result need not be (26, 26, 46). -/
theorem C5_amended :
    (∀ d1 d2 d3 d4 d5 d6 v1 v2 v3 v4 v5 v6 : Nat,
      hexDigit d1 = some v1 → hexDigit d2 = some v2 → hexDigit d3 = some v3 →
      hexDigit d4 = some v4 → hexDigit d5 = some v5 → hexDigit d6 = some v6 →
      parse_hex_color [35, d1, d2, d3, d4, d5, d6] =
        some (v1 * 16 + v2, v3 * 16 + v4, v5 * 16 + v6) ∧
      parse_hex_color [d1, d2, d3, d4, d5, d6] =
        some (v1 * 16 + v2, v3 * 16 + v4, v5 * 16 + v6)) ∧
    (∀ s : List Nat, (s.dropWhile (fun b => b == 35)).length < 6 →
      parse_hex_color s = some (26, 26, 46)) := by
  constructor
  · intro d1 d2 d3 d4 d5 d6 v1 v2 v3 v4 v5 v6 h1 h2 h3 h4 h5 h6
    have hsix := parse_hex_color_six d1 d2 d3 d4 d5 d6 v1 v2 v3 v4 v5 v6 h1 h2 h3 h4 h5 h6
    exact ⟨by rw [show ([35, d1, d2, d3, d4, d5, d6] : List Nat) =
        35 :: [d1, d2, d3, d4, d5, d6] from rfl, parse_hex_color_hash, hsix], hsix⟩
  · intro s hs
    unfold parse_hex_color
    rw [if_neg (by omega)]

/-- Witness for C5 (amended): "#e94560" parses to (233, 69, 96) and the short
string "##" falls back to the default. -/
theorem C5_amended_witness :
    parse_hex_color [35, 101, 57, 52, 53, 54, 48] = some (233, 69, 96) ∧
    parse_hex_color [35, 35] = some (26, 26, 46) :=
  ⟨(C5_amended.1 101 57 52 53 54 48 14 9 4 5 6 0 rfl rfl rfl rfl rfl rfl).1,
    C5_amended.2 [35, 35] (by decide)⟩

/-- Claim C9 is the intended behaviour but the code violates it:
parse_hex_color is NOT total.  On the input "€aaaaa" (UTF-8 bytes
E2 82 AC 61 61 61 61 61, 8 bytes ≥ 6) the Rust code takes the byte slice
&hex[0..2], whose end falls inside the three-byte character '€' — not a
character boundary — so the slice panics.  The model returns `none` exactly
there. -/
theorem C9_slice_panic :
    parse_hex_color [226, 130, 172, 97, 97, 97, 97, 97] = none ∧
    charBoundary (([226, 130, 172, 97, 97, 97, 97, 97] : List Nat).dropWhile
      (fun b => b == 35)) 2 = false := by
  exact ⟨by decide, by decide⟩

/-! ## Timer claims -/

/-- Claim C6: pressing a __TIMER_N__ button toggles the timer (idle: start
becomes the current epoch and duration N*60; running: both reset to 0).
Reading the widget returns 00:00 when idle; MM:SS of the remaining time r
while running with r > 0 (in particular 00:01 at start+duration-1); at the
first read with elapsed >= duration it returns DONE! exactly once while
resetting both counters, so every subsequent read returns 00:00. -/
theorem C6_timer_toggle :
    (∀ now n s, s.start = 0 → press_timer now n s = ⟨now, n * 60⟩) ∧
    (∀ now n s, 0 < s.start → press_timer now n s = ⟨0, 0⟩) ∧
    (∀ now s, s.start = 0 ∨ s.duration = 0 → get_widget_timer now s = ("00:00", s)) ∧
    (∀ now s, 0 < s.start → 0 < s.duration → 0 < s.duration - (now - s.start) →
      get_widget_timer now s = (fmtMMSS (s.duration - (now - s.start)), s)) ∧
    (∀ s : TimerState, 0 < s.start → 0 < s.duration →
      get_widget_timer (s.start + s.duration - 1) s = ("00:01", s)) ∧
    (∀ now s, 0 < s.start → 0 < s.duration → s.duration ≤ now - s.start →
      get_widget_timer now s = ("DONE!", ⟨0, 0⟩)) ∧
    (∀ now, get_widget_timer now ⟨0, 0⟩ = ("00:00", ⟨0, 0⟩)) := by
  refine ⟨?_, ?_, ?_, ?_, ?_, ?_, ?_⟩
  · intro now n s h
    unfold press_timer
    rw [if_neg (by omega)]
  · intro now n s h
    unfold press_timer
    rw [if_pos h]
  · intro now s h
    unfold get_widget_timer
    rw [if_pos h]
  · intro now s h1 h2 h3
    unfold get_widget_timer
    rw [if_neg (by omega), if_neg (by omega)]
  · intro s h1 h2
    unfold get_widget_timer
    rw [if_neg (by omega),
      show s.duration - (s.start + s.duration - 1 - s.start) = 1 by omega,
      if_neg (by omega)]
    rfl
  · intro now s h1 h2 h3
    unfold get_widget_timer
    rw [if_neg (by omega), if_pos (by omega)]
  · intro now
    unfold get_widget_timer
    rw [if_pos (Or.inl rfl)]

/-- Witness for C6: a 2-minute timer pressed at epoch 1000 reads 00:01 at
1119, DONE! at 1120 (resetting the state), and 00:00 afterwards. -/
theorem C6_timer_toggle_witness :
    press_timer 1000 2 ⟨0, 0⟩ = ⟨1000, 120⟩ ∧
    get_widget_timer 1119 ⟨1000, 120⟩ = ("00:01", ⟨1000, 120⟩) ∧
    get_widget_timer 1120 ⟨1000, 120⟩ = ("DONE!", ⟨0, 0⟩) ∧
    get_widget_timer 1121 ⟨0, 0⟩ = ("00:00", ⟨0, 0⟩) :=
  ⟨C6_timer_toggle.1 1000 2 ⟨0, 0⟩ rfl,
    C6_timer_toggle.2.2.2.2.1 ⟨1000, 120⟩ (by decide) (by decide),
    C6_timer_toggle.2.2.2.2.2.1 1120 ⟨1000, 120⟩ (by decide) (by decide) (by decide),
    C6_timer_toggle.2.2.2.2.2.2 1121⟩

end StreamDeck
